import Mathlib

/-!
Verification of the DMX-to-OSC presence bridge (`presence_sensor.py`).

The serial byte stream is modelled as a `List Nat` of byte values; a
`serial.read(n)` with a timeout returns at most `n` bytes, so reading from
a finite list (taking what is available) models a stream that times out at
its end.  Each reader below returns both its result and the remaining
stream, which is what the underlying serial handle's read position holds.
-/

namespace PresenceSensor

/-- Protocol constant `ENTTEC_START_DELIMITER = 0x7E`. -/
def ENTTEC_START_DELIMITER : Nat := 0x7E

/-- Protocol constant `ENTTEC_END_DELIMITER = 0xE7`. -/
def ENTTEC_END_DELIMITER : Nat := 0xE7

/-- Protocol constant `ENTTEC_LABEL_DMX_RECEIVED = 5`. -/
def ENTTEC_LABEL_DMX_RECEIVED : Nat := 5

/-- Configuration constant `DMX_PRESENCE_CHANNEL = 1`. -/
def DMX_PRESENCE_CHANNEL : Nat := 1

/-- `EnttecDMXReceiver._read_message`: scan for the start delimiter, read a
3-byte header (label, little-endian length), read `length` payload bytes,
check the end delimiter.  Returns the decoded `(label, data)` message (or
`none`) together with the remaining stream. -/
def read_message (s : List Nat) : Option (Nat × List Nat) × List Nat :=
  match s.dropWhile (fun b => b != ENTTEC_START_DELIMITER) with
  | [] => (none, [])
  | _ :: rest =>
    match rest with
    | label :: lo :: hi :: rest2 =>
      let length := lo ||| (hi <<< 8)
      let data := rest2.take length
      let rest3 := rest2.drop length
      if data.length < length then (none, rest3)
      else
        match rest3 with
        | [] => (none, [])
        | e :: rest4 =>
          if e != ENTTEC_END_DELIMITER then (none, rest4)
          else (some (label, data), rest4)
    | _ => (none, [])

/-- The validation-and-indexing half of `EnttecDMXReceiver.read_dmx_channel`,
applied to an already decoded `(label, data)` message. -/
def extract_channel (label : Nat) (data : List Nat) (channel : Nat) : Option Nat :=
  if label != ENTTEC_LABEL_DMX_RECEIVED then none
  else if data.length < 2 then none
  else if data.headD 0 != 0 then none
  else
    let dmx_index := channel + 1
    if data.length ≤ dmx_index then none
    else data[dmx_index]?

/-- `EnttecDMXReceiver.read_dmx_channel`: read one message and extract the
requested channel. -/
def read_dmx_channel (channel : Nat) (s : List Nat) : Option Nat :=
  match (read_message s).1 with
  | none => none
  | some (label, data) => extract_channel label data channel

/-- `EnttecDMXReceiver.get_presence`: channel value `> 0`, propagating `none`. -/
def get_presence (s : List Nat) : Option Bool :=
  match read_dmx_channel DMX_PRESENCE_CHANNEL s with
  | none => none
  | some v => some (decide (v > 0))

/-- A wire frame as the spec describes it:
`0x7E, label, lenLo, lenHi, payload, 0xE7` with the length little-endian. -/
def encode_frame (label : Nat) (payload : List Nat) : List Nat :=
  ENTTEC_START_DELIMITER :: label :: (payload.length % 256) :: (payload.length / 256)
    :: (payload ++ [ENTTEC_END_DELIMITER])

/-- Recombining the two little-endian length bytes with `lo | (hi << 8)`
recovers the encoded length. -/
lemma lor_mod_div_256 (L : Nat) :
    (L % 256) ||| ((L / 256) <<< 8) = L := by
  have h256 : (256 : Nat) = 2 ^ 8 := by norm_num
  have hdiv : L / 256 = L >>> 8 := by
    rw [h256, ← Nat.shiftRight_eq_div_pow]
  apply Nat.eq_of_testBit_eq
  intro i
  rw [Nat.testBit_or, hdiv, h256, Nat.testBit_mod_two_pow, Nat.testBit_shiftLeft,
    Nat.testBit_shiftRight]
  rcases Nat.lt_or_ge i 8 with hi8 | hi8
  · have h1 : decide (i < 8) = true := by simp [hi8]
    have h2 : decide (i ≥ 8) = false := by simp [Nat.not_le.mpr hi8]
    rw [h1, h2]
    simp
  · have h1 : decide (i < 8) = false := by simp [Nat.not_lt.mpr hi8]
    have h2 : decide (i ≥ 8) = true := by simp [hi8]
    have hadd : 8 + (i - 8) = i := by omega
    rw [h1, h2, hadd]
    simp

/-- Bytes that are not the start delimiter are skipped by the delimiter scan,
so they do not affect the decoded message. -/
lemma read_message_skip (junk s : List Nat)
    (hj : ∀ x ∈ junk, x ≠ ENTTEC_START_DELIMITER) :
    read_message (junk ++ s) = read_message s := by
  unfold read_message
  rw [List.dropWhile_append_of_pos]
  intro a ha
  simpa using hj a ha

/-- Decoding an encoded frame recovers its label and payload and consumes
the whole frame. -/
lemma read_message_encode (b : Nat) (payload : List Nat) :
    read_message (encode_frame b payload) = (some (b, payload), []) := by
  simp [read_message, encode_frame, lor_mod_div_256, List.take_left, List.drop_left,
    ENTTEC_START_DELIMITER, ENTTEC_END_DELIMITER]

/-- C1: Framing round-trip.  For every label byte `b` and payload of length
at most 512, decoding `0x7E, b, Llo, Lhi, payload, 0xE7` (length
little-endian) yields exactly the message `(b, payload)` (consuming the
whole frame). -/
theorem framing_round_trip (b : Nat) (payload : List Nat)
    (_hL : payload.length ≤ 512) :
    read_message (encode_frame b payload) = (some (b, payload), []) :=
  read_message_encode b payload

/-- C1 witness: the round trip evaluated on a concrete frame. -/
theorem framing_round_trip_witness :
    read_message (encode_frame 5 [0, 0, 7, 9]) = (some (5, [0, 0, 7, 9]), []) :=
  framing_round_trip 5 [0, 0, 7, 9] (by decide)

/-- C6: Truncation safety.  If the stream ends before the announced number
of payload bytes is available, the frame reader returns `none` (being a
total function, it cannot throw). -/
theorem truncation_safety (junk : List Nat)
    (hjunk : ∀ x ∈ junk, x ≠ ENTTEC_START_DELIMITER) (b lo hi : Nat)
    (t : List Nat) (h : t.length < lo ||| (hi <<< 8)) :
    (read_message (junk ++ ENTTEC_START_DELIMITER :: b :: lo :: hi :: t)).1
      = none := by
  rw [read_message_skip junk _ hjunk]
  have hlen : (t.take (lo ||| (hi <<< 8))).length < lo ||| (hi <<< 8) := by
    rw [List.length_take]
    omega
  simp [read_message, hlen]
  simp [h]

/-- C6 witness: a frame announcing 5 payload bytes but supplying 2. -/
theorem truncation_safety_witness :
    (read_message ([9] ++ ENTTEC_START_DELIMITER :: 5 :: 5 :: 0 :: [1, 2])).1
      = none := by
  have h : ([1, 2] : List Nat).length < 5 ||| (0 <<< 8) := by decide
  exact truncation_safety [9] (by decide) 5 5 0 [1, 2] h

/-- C7: Bad end delimiter.  A frame terminated by any byte other than `0xE7`
decodes to `none`, and exactly the malformed frame's bytes are consumed; a
subsequent call on the remaining stream skips any further non-delimiter
junk and still decodes the next valid frame. -/
theorem bad_end_delimiter (b : Nat) (payload : List Nat) (e : Nat)
    (he : e ≠ ENTTEC_END_DELIMITER) (rest : List Nat) :
    read_message (ENTTEC_START_DELIMITER :: b :: (payload.length % 256)
        :: (payload.length / 256) :: (payload ++ e :: rest)) = (none, rest)
    ∧ ∀ junk b2 p2, (∀ x ∈ junk, x ≠ ENTTEC_START_DELIMITER) →
        rest = junk ++ encode_frame b2 p2 → p2.length ≤ 512 →
        (read_message rest).1 = some (b2, p2) := by
  constructor
  · have htake : List.take payload.length (payload ++ ([e] ++ rest)) = payload :=
      List.take_left' rfl
    have hdrop : List.drop payload.length (payload ++ ([e] ++ rest)) = [e] ++ rest :=
      List.drop_left' rfl
    simp [read_message, lor_mod_div_256, ENTTEC_START_DELIMITER, htake, hdrop, he]
  · intro junk b2 p2 hjunk hrest _hlen
    rw [hrest, read_message_skip junk _ hjunk, read_message_encode b2 p2]

/-- C7 witness: a concrete malformed frame followed by junk and a valid frame. -/
theorem bad_end_delimiter_witness :
    read_message (ENTTEC_START_DELIMITER :: 5 :: (([1] : List Nat).length % 256)
        :: (([1] : List Nat).length / 256) :: ([1] ++ 0 :: ([9] ++ encode_frame 6 [4])))
      = (none, [9] ++ encode_frame 6 [4])
    ∧ (read_message ([9] ++ encode_frame 6 [4])).1 = some (6, [4]) := by
  have h := bad_end_delimiter 5 [1] 0 (by decide) ([9] ++ encode_frame 6 [4])
  exact ⟨h.1, h.2 [9] 6 [4] (by decide) rfl (by decide)⟩

/-- C2: Channel extraction.  For every decoded frame: with label 5, status
byte 0 and payload `0 :: startCode :: channels`, `read_dmx_channel k`
returns the `k`-th channel for `1 ≤ k ≤ N` and `none` for `k > N`; frames
with a different label, a payload shorter than 2 bytes, or a nonzero
status byte all yield `none`. -/
theorem channel_extraction (s : List Nat) (label : Nat) (data : List Nat)
    (hdec : (read_message s).1 = some (label, data)) :
    (∀ sc cs, label = ENTTEC_LABEL_DMX_RECEIVED → data = 0 :: sc :: cs →
      (∀ k, 1 ≤ k → k ≤ cs.length →
        ∃ ck, cs[k - 1]? = some ck ∧ read_dmx_channel k s = some ck)
      ∧ (∀ k, cs.length < k → read_dmx_channel k s = none))
    ∧ (label ≠ ENTTEC_LABEL_DMX_RECEIVED → ∀ ch, read_dmx_channel ch s = none)
    ∧ (data.length < 2 → ∀ ch, read_dmx_channel ch s = none)
    ∧ (∀ b0 t, data = b0 :: t → b0 ≠ 0 → ∀ ch, read_dmx_channel ch s = none) := by
  have hr : ∀ ch, read_dmx_channel ch s = extract_channel label data ch := by
    intro ch
    unfold read_dmx_channel
    rw [hdec]
  refine ⟨?_, ?_, ?_, ?_⟩
  · intro sc cs hlab hdata
    subst hlab hdata
    constructor
    · intro k hk1 hk2
      obtain ⟨kp, rfl⟩ : ∃ kp, k = kp + 1 := ⟨k - 1, by omega⟩
      have hkp : kp < cs.length := by omega
      rcases hcs : cs[kp]? with _ | ck
      · rw [List.getElem?_eq_none_iff] at hcs
        omega
      · refine ⟨ck, by simpa using hcs, ?_⟩
        rw [hr]
        have hcond : ¬ ((0 :: sc :: cs).length ≤ kp + 1 + 1) := by
          simp only [List.length_cons]
          omega
        simp [extract_channel, hcond, hcs]
        omega
    · intro k hk
      rw [hr]
      have hcond : (0 :: sc :: cs).length ≤ k + 1 := by
        simp only [List.length_cons]
        omega
      simp [extract_channel, hcond]
      omega
  · intro hlab ch
    rw [hr]
    simp [extract_channel, bne_iff_ne, hlab]
  · intro hlen ch
    rw [hr]
    by_cases hlab : label = ENTTEC_LABEL_DMX_RECEIVED
    · simp [extract_channel, hlab, hlen]
    · simp [extract_channel, bne_iff_ne, hlab]
  · intro b0 t hdata hb0 ch
    rw [hr, hdata]
    by_cases hlab : label = ENTTEC_LABEL_DMX_RECEIVED
    · by_cases hlen : (b0 :: t).length < 2
      · simp [extract_channel, hlab, hlen]
        intro h1 h2 h3
        omega
      · simp [extract_channel, hlab, hlen, hb0]
    · simp [extract_channel, bne_iff_ne, hlab]

/-- C2 witness: extraction evaluated on one concrete decoded frame. -/
theorem channel_extraction_witness :
    ∃ ck, ([7, 9] : List Nat)[0]? = some ck ∧
      read_dmx_channel 1 (encode_frame 5 [0, 0, 7, 9]) = some ck := by
  have hdec : (read_message (encode_frame 5 [0, 0, 7, 9])).1 = some (5, [0, 0, 7, 9]) := by
    rw [read_message_encode 5 [0, 0, 7, 9]]
  exact ((channel_extraction (encode_frame 5 [0, 0, 7, 9]) 5 [0, 0, 7, 9] hdec).1
    0 [7, 9] rfl rfl).1 1 (by decide) (by decide)

/-- C3: Presence derivation.  `get_presence` is `some true` exactly when the
channel-1 extraction yields a value greater than 0, `some false` exactly
when it yields 0, and `none` exactly when the extraction yields `none`. -/
theorem presence_derivation (s : List Nat) :
    DMX_PRESENCE_CHANNEL = 1
    ∧ (get_presence s = none ↔ read_dmx_channel DMX_PRESENCE_CHANNEL s = none)
    ∧ (get_presence s = some true ↔
        ∃ v, read_dmx_channel DMX_PRESENCE_CHANNEL s = some v ∧ 0 < v)
    ∧ (get_presence s = some false ↔
        read_dmx_channel DMX_PRESENCE_CHANNEL s = some 0) := by
  refine ⟨rfl, ?_⟩
  rcases h : read_dmx_channel DMX_PRESENCE_CHANNEL s with _ | v
  · simp [get_presence, h]
  · refine ⟨by simp [get_presence, h], ?_, ?_⟩
    · simp only [get_presence, h]
      constructor
      · intro hv
        refine ⟨v, rfl, ?_⟩
        simpa using hv
      · rintro ⟨w, hw, hw0⟩
        obtain rfl : v = w := by simpa using hw
        simpa using hw0
    · simp only [get_presence, h]
      constructor
      · intro hv
        have hv0 : ¬ 0 < v := by simpa using hv
        have hz : v = 0 := by omega
        rw [hz]
      · intro hw
        obtain rfl : v = 0 := by simpa using hw
        simp

/-- C3 witness: the derivation evaluated at one concrete frame. -/
theorem presence_derivation_witness :
    get_presence (encode_frame 5 [0, 0, 7]) = some true ↔
      ∃ v, read_dmx_channel DMX_PRESENCE_CHANNEL (encode_frame 5 [0, 0, 7])
        = some v ∧ 0 < v :=
  (presence_derivation (encode_frame 5 [0, 0, 7])).2.2.1

/-- `RNBOConnection.send_presence`: emits the value when an OSC client is
bound, otherwise silently does nothing.  The emitted datagrams are
modelled as a list of sent values. -/
def send_presence (osc_client : Bool) (value : Nat) : List Nat :=
  if osc_client then [value] else []

/-- The state update of one iteration of `DMXToOSCBridge.run`: a non-`none`
reading that differs from the held state replaces it, everything else
leaves it unchanged. -/
def update_presence (current : Bool) (reading : Option Bool) : Bool :=
  match reading with
  | some p => if p != current then p else current
  | none => current

/-- The body of `DMXToOSCBridge.run` over a finite schedule of per-cycle
readings (each the result of `get_presence` in that cycle).  Returns the
final held state and, per cycle, the list of values sent in that cycle. -/
def run_loop (osc_client : Bool) (current : Bool) :
    List (Option Bool) → Bool × List (List Nat)
  | [] => (current, [])
  | r :: rs =>
    let current2 := update_presence current r
    let fade_value := if current2 then 1 else 0
    let out := run_loop osc_client current2 rs
    (out.1, send_presence osc_client fade_value :: out.2)

/-- `DMXToOSCBridge.__init__` sets `current_presence = False`. -/
def init_current_presence : Bool := false

/-- C4: Idempotent resend.  With the message client bound, across `N`
consecutive cycles in which every read returns `none`, the held state
never changes and each cycle emits exactly one message carrying the held
state — `N` identical messages in total, never an empty cycle. -/
theorem idempotent_resend (N : Nat) (current : Bool) :
    run_loop true current (List.replicate N none)
      = (current, List.replicate N [if current then 1 else 0]) := by
  induction N with
  | zero => rfl
  | succ n ih =>
    simp only [List.replicate_succ, run_loop, update_presence, send_presence, ih]
    simp

/-- C4 witness: three silent cycles from a held `true` state. -/
theorem idempotent_resend_witness :
    run_loop true true (List.replicate 3 none) = (true, List.replicate 3 [1]) :=
  idempotent_resend 3 true

/-- C10: Initial state.  The held state starts as `false`, so every message
sent during cycles preceding the first non-`none` reading carries the
value 0. -/
theorem initial_state_messages (pre post : List (Option Bool))
    (h : ∀ r ∈ pre, r = none) :
    init_current_presence = false
    ∧ (run_loop true init_current_presence (pre ++ post)).2.take pre.length
        = List.replicate pre.length [0] := by
  refine ⟨rfl, ?_⟩
  induction pre with
  | nil => simp
  | cons r rs ih =>
    have hr : r = none := h r (List.mem_cons_self r rs)
    subst hr
    have ih2 := ih (fun x hx => h x (List.mem_cons_of_mem none hx))
    simp only [init_current_presence] at ih2 ⊢
    simp [run_loop, update_presence, send_presence, ih2, List.replicate_succ]

/-- C10 witness: two silent cycles before a reading keep sending 0. -/
theorem initial_state_messages_witness :
    init_current_presence = false
    ∧ (run_loop true init_current_presence
        ([none, none] ++ [some true])).2.take 2 = List.replicate 2 [0] :=
  initial_state_messages [none, none] [some true] (by decide)

/-- A JSON value as it can appear in an OSCQuery node's value field. -/
inductive JVal where
  | jnull : JVal
  | jbool : Bool → JVal
  | jnum : Int → JVal
  | jstr : String → JVal
  | jarr : List JVal → JVal

/-- Python truthiness of a JSON value. -/
def truthy : JVal → Bool
  | .jnull => false
  | .jbool b => b
  | .jnum n => n != 0
  | .jstr str => str != ""
  | .jarr xs => !xs.isEmpty

/-- Python `a or b` over optional JSON values (`dict.get` returns `None`
for an absent key, and `or` keeps the left operand only when truthy). -/
def py_or (a b : Option JVal) : Option JVal :=
  match a with
  | some v => if truthy v then some v else b
  | none => b

/-- `val[0] if isinstance(val, list) and val else val`. -/
def unwrap_value : Option JVal → Option JVal
  | some (.jarr (x :: _)) => some x
  | v => v

/-- An OSCQuery tree node: optional `FULL_PATH`, optional lowercase `value`
and uppercase `VALUE` fields, and the `CONTENTS` children in order. -/
inductive JTree where
  | node : Option String → Option JVal → Option JVal → List (String × JTree) → JTree

/-- Python falsiness of a fetched tree (an empty dict). -/
def jtree_falsy : JTree → Bool
  | .node none none none [] => true
  | _ => false

mutual

/-- `RNBOConnection._search_tree`: return the node's (unwrapped) value when
its `FULL_PATH` equals the target, otherwise search the `CONTENTS`
children in order. -/
def search_tree (target : String) : JTree → Option JVal
  | .node full_path value valueUC contents =>
    if full_path = some target then
      unwrap_value (py_or value valueUC)
    else
      search_children target contents

/-- The `for child in (tree.get(\x22CONTENTS\x22) or \x7b\x7d).values()` loop of
`_search_tree`: first non-`None` child result wins. -/
def search_children (target : String) : List (String × JTree) → Option JVal
  | [] => none
  | (_, child) :: rest =>
    match search_tree target child with
    | some r => some r
    | none => search_children target rest

end

/-- The candidate loop of `RNBOConnection.find_parameter_path`. -/
def find_path_loop (tree : JTree) : List String → Option String
  | [] => none
  | path :: rest =>
    if (search_tree path tree).isSome then some path
    else find_path_loop tree rest

/-- `RNBOConnection.find_parameter_path`: the fetched tree (`None` when the
HTTP query failed) is an explicit input; a missing or falsy (empty) tree
yields `None`, otherwise the first candidate found in the tree wins. -/
def find_parameter_path (fetched : Option JTree) (search_paths : List String) :
    Option String :=
  match fetched with
  | none => none
  | some tree =>
    if jtree_falsy tree then none
    else find_path_loop tree search_paths

/-- Configuration constant `PRESENCE_PARAM_PATH`. -/
def PRESENCE_PARAM_PATH : String := "/rnbo/inst/0/params/fadeTrig"

/-- The static candidate list in `DMXToOSCBridge.setup`. -/
def possible_paths : List String :=
  ["/rnbo/inst/0/params/fadeTrig", "/rnbo/inst/1/params/fadeTrig"]

/-- `max_retries = 30` in `DMXToOSCBridge.setup`. -/
def max_retries : Nat := 30

/-- The discovery retry loop of `DMXToOSCBridge.setup`.  `discover i` is the
outcome of the `(i+1)`-th `RNBOConnection.discover()` call; the result is
whether the loop broke out on a success together with the total number of
`discover()` calls performed (when started with `retry_count = 0`). -/
def discovery_loop (discover : Nat → Bool) (retry_count : Nat) : Bool × Nat :=
  if retry_count < max_retries then
    if discover retry_count then (true, retry_count + 1)
    else discovery_loop discover (retry_count + 1)
  else (false, retry_count)
termination_by max_retries - retry_count

/-- `DMXToOSCBridge.setup`: discovery retry loop, then parameter-path lookup
(non-fatal, falling back to the static default), then the serial connect
attempt.  Returns success and the resulting `param_path`. -/
def setup (discover : Nat → Bool) (fetched : Option JTree) (connect : Bool) :
    Bool × String :=
  if (discovery_loop discover 0).1 = false then (false, PRESENCE_PARAM_PATH)
  else
    let found := find_parameter_path fetched possible_paths
    let param_path := found.getD PRESENCE_PARAM_PATH
    if connect then (true, param_path) else (false, param_path)

/-- `main`: exit status 0 when `setup` succeeds (and the loop later returns
normally), 1 when `setup` fails. -/
def main_exit (discover : Nat → Bool) (fetched : Option JTree) (connect : Bool) :
    Nat :=
  if (setup discover fetched connect).1 then 0 else 1

/-- When every attempt up to the bound fails, the retry loop runs to
exhaustion and reports `max_retries` attempts. -/
lemma discovery_loop_exhausts (discover : Nat → Bool)
    (h : ∀ i, i < max_retries → discover i = false) :
    ∀ n r, max_retries - r ≤ n → r ≤ max_retries →
      discovery_loop discover r = (false, max_retries) := by
  intro n
  induction n with
  | zero =>
    intro r h1 h2
    have hr : r = max_retries := by omega
    subst hr
    rw [discovery_loop]
    simp
  | succ m ih =>
    intro r h1 h2
    rcases Nat.lt_or_ge r max_retries with hlt | hge
    · rw [discovery_loop]
      simp [hlt, h r hlt]
      exact ih (r + 1) (by omega) (by omega)
    · have hr : r = max_retries := by omega
      subst hr
      rw [discovery_loop]
      simp

/-- C5: Retry bound.  When `discover()` fails on every attempt, `setup`
performs exactly 30 discovery attempts, the loop terminates, `setup`
reports failure, and the process exit status is 1. -/
theorem retry_bound (discover : Nat → Bool)
    (h : ∀ i, i < max_retries → discover i = false)
    (fetched : Option JTree) (connect : Bool) :
    max_retries = 30
    ∧ discovery_loop discover 0 = (false, 30)
    ∧ (setup discover fetched connect).1 = false
    ∧ main_exit discover fetched connect = 1 := by
  have hloop : discovery_loop discover 0 = (false, max_retries) :=
    discovery_loop_exhausts discover h max_retries 0 (by omega) (by omega)
  refine ⟨rfl, hloop, ?_, ?_⟩
  · simp [setup, hloop]
  · simp [main_exit, setup, hloop]

/-- C5 witness: an oracle that always fails. -/
theorem retry_bound_witness :
    max_retries = 30
    ∧ discovery_loop (fun _ => false) 0 = (false, 30)
    ∧ (setup (fun _ => false) none true).1 = false
    ∧ main_exit (fun _ => false) none true = 1 :=
  retry_bound (fun _ => false) (fun _ _ => rfl) none true

/-- A falsy (empty-dict) tree contains no match for any target. -/
lemma search_tree_falsy (p : String) (tree : JTree)
    (h : jtree_falsy tree = true) : search_tree p tree = none := by
  rcases tree with ⟨fp, v, vUC, cs⟩
  cases fp <;> cases v <;> cases vUC <;> cases cs <;>
    simp_all [jtree_falsy, search_tree, search_children]

/-- C8: Discovery search order.  The first candidate found in the tree
wins: if `pathA` is found the result is `pathA`; if only `pathB` is found
the result is `pathB`; if neither is found the result is `none`. -/
theorem discovery_search_order (tree : JTree) (pathA pathB : String) :
    ((search_tree pathA tree).isSome = true →
      find_parameter_path (some tree) [pathA, pathB] = some pathA)
    ∧ (search_tree pathA tree = none → (search_tree pathB tree).isSome = true →
      find_parameter_path (some tree) [pathA, pathB] = some pathB)
    ∧ (search_tree pathA tree = none → search_tree pathB tree = none →
      find_parameter_path (some tree) [pathA, pathB] = none) := by
  refine ⟨?_, ?_, ?_⟩
  · intro hA
    have hf : jtree_falsy tree = false := by
      cases htf : jtree_falsy tree
      · rfl
      · rw [search_tree_falsy pathA tree htf] at hA
        simp at hA
    simp [find_parameter_path, find_path_loop, hf, hA]
  · intro hA hB
    have hf : jtree_falsy tree = false := by
      cases htf : jtree_falsy tree
      · rfl
      · rw [search_tree_falsy pathB tree htf] at hB
        simp at hB
    simp [find_parameter_path, find_path_loop, hf, hA, hB]
  · intro hA hB
    cases htf : jtree_falsy tree
    · simp [find_parameter_path, find_path_loop, htf, hA, hB]
    · simp [find_parameter_path, htf]

/-- C8 witness: a tree holding only `/b` among the candidates `/a`, `/b`. -/
theorem discovery_search_order_witness :
    find_parameter_path (some (JTree.node none none none
        [("child", JTree.node (some "/b") (some (JVal.jnum 1)) none [])]))
      ["/a", "/b"] = some "/b" :=
  (discovery_search_order (JTree.node none none none
      [("child", JTree.node (some "/b") (some (JVal.jnum 1)) none [])])
    "/a" "/b").2.1 (by rfl) (by rfl)

/-- C9: A node whose `FULL_PATH` matches the target but whose lowercase
value field is absent, null, or falsy (with no uppercase `VALUE` field)
yields `none`, so `find_parameter_path` reports the candidate as not found
even though its path exists in the tree, and the sibling scan continues
past that node. -/
theorem falsy_value_not_found (target : String) (v : Option JVal)
    (hv : v = none ∨ ∃ u, v = some u ∧ truthy u = false)
    (cs : List (String × JTree)) (name1 name2 : String) (sib : JTree) :
    search_tree target (JTree.node (some target) v none cs) = none
    ∧ find_parameter_path
        (some (JTree.node (some target) v none cs)) [target] = none
    ∧ search_children target
        [(name1, JTree.node (some target) v none cs), (name2, sib)]
        = search_tree target sib := by
  have hsearch : search_tree target (JTree.node (some target) v none cs) = none := by
    rcases hv with rfl | ⟨u, rfl, hu⟩
    · simp [search_tree, py_or, unwrap_value]
    · simp [search_tree, py_or, hu, unwrap_value]
  refine ⟨hsearch, ?_, ?_⟩
  · simp [find_parameter_path, jtree_falsy, find_path_loop, hsearch]
  · rcases hs : search_tree target sib with _ | r <;>
      simp [search_children, hsearch, hs]

/-- C9 witness: a matching node carrying the scalar 0 and no `VALUE` field
is skipped, while a sibling with a real value is still found. -/
theorem falsy_value_not_found_witness :
    search_tree "/p" (JTree.node (some "/p") (some (JVal.jnum 0)) none []) = none
    ∧ find_parameter_path
        (some (JTree.node (some "/p") (some (JVal.jnum 0)) none [])) ["/p"] = none
    ∧ search_children "/p"
        [("a", JTree.node (some "/p") (some (JVal.jnum 0)) none []),
         ("b", JTree.node (some "/p") (some (JVal.jnum 7)) none [])]
        = search_tree "/p" (JTree.node (some "/p") (some (JVal.jnum 7)) none []) :=
  falsy_value_not_found "/p" (some (JVal.jnum 0))
    (Or.inr ⟨JVal.jnum 0, rfl, rfl⟩) [] "a" "b"
    (JTree.node (some "/p") (some (JVal.jnum 7)) none [])

end PresenceSensor
